import Mathlib

/-!
Verification of the QA_tool single-page website auditor
(`audit/services.py`): markup parser, link resolver and sampler,
finding evaluator, scorer, and audit orchestrator, shallowly embedded
in Lean.  Python dicts are modelled as insertion-ordered association
lists with unique keys; machine integers are `Int`/`Nat`; fallible
steps (network fetches, database writes) are modelled with `Except`
oracles supplied by an environment record.
-/

namespace QATool

/-- Python `dict` lookup `d.get(k)` on an insertion-ordered association
list with unique keys (the only way lists are built below). -/
def dictGet {α : Type} : List (String × α) → String → Option α
  | [], _ => none
  | (k', v') :: d, k => if k' == k then some v' else dictGet d k

/-- Python `d[k] = v`: overwrite in place when the key exists (keeping
its position, as Python dicts do), else append at the end. -/
def dictSet {α : Type} : List (String × α) → String → α → List (String × α)
  | [], k, v => [(k, v)]
  | (k', v') :: d, k, v => if k' == k then (k', v) :: d else (k', v') :: dictSet d k v

/-- Python `d.setdefault(k, v)`: insert only when the key is absent
(first occurrence wins). -/
def dictSetdefault {α : Type} : List (String × α) → String → α → List (String × α)
  | [], k, v => [(k, v)]
  | (k', v') :: d, k, v => if k' == k then (k', v') :: d else (k', v') :: dictSetdefault d k v

/-- Python `s.lower()` (character-wise; kernel-reducible replacement
for `String.toLower`). -/
def strToLower (s : String) : String :=
  (s.data.map Char.toLower).asString

/-- The whitespace stripped by Python `s.strip()` (ASCII fragment;
Python also strips rarer Unicode spaces, which no claim exercises). -/
def isStripChar (c : Char) : Bool :=
  c == ' ' ∨ c == '\t' ∨ c == '\n' ∨ c == '\r' ∨ c == '\x0b' ∨ c == '\x0c'

/-- Python `s.strip()`: drop leading and trailing whitespace. -/
def pyStrip (s : String) : String :=
  (((s.data.dropWhile isStripChar).reverse.dropWhile isStripChar).reverse).asString

/-- Python `s.startswith(pre)` (kernel-reducible replacement for
`String.startsWith`). -/
def strStartsWith (s pre : String) : Bool :=
  pre.data.isPrefixOf s.data

/-- `AuditFinding.SEVERITY_LOW` from `audit/models.py`. -/
def SEVERITY_LOW : String := "low"

/-- `AuditFinding.SEVERITY_MEDIUM` from `audit/models.py`. -/
def SEVERITY_MEDIUM : String := "medium"

/-- `AuditFinding.SEVERITY_HIGH` from `audit/models.py`. -/
def SEVERITY_HIGH : String := "high"

/-- A finding dict as produced by `_evaluate_findings` (also the shape
of a persisted `AuditFinding` row). -/
structure Finding where
  category : String
  severity : String
  title : String
  description : String
  recommendation : String
deriving Repr, DecidableEq

/-- The `ParsedPage` dataclass from `audit/services.py`. `meta` is a
Python dict (insertion-ordered association list here). -/
structure ParsedPage where
  url : String
  title : Option String := none
  meta : List (String × String) := []
  links : List String := []
  images : List (String × String) := []
  headings : List (String × String) := []
  forms : Nat := 0
deriving Repr, DecidableEq

/-- The severity-penalty table lookup `penalties.get(finding["severity"], 5)`
inside `_calculate_score`. -/
def penaltyFor (sev : String) : Int :=
  if sev == SEVERITY_LOW then 5
  else if sev == SEVERITY_MEDIUM then 10
  else if sev == SEVERITY_HIGH then 20
  else 5

/-- `_calculate_score(page, findings)` from `audit/services.py`: start at
`base = 99`, subtract the per-severity penalty for every finding, and
return `max(0, base)`.  The `page` argument is unused, as in the source. -/
def calculate_score (_page : ParsedPage) (findings : List Finding) : Int :=
  max 0 (findings.foldl (fun base f => base - penaltyFor f.severity) 99)

/-- Total penalty of a findings list (the amount `_calculate_score`
subtracts from its baseline before clamping). -/
def totalPenalty (findings : List Finding) : Int :=
  (findings.map (fun f => penaltyFor f.severity)).sum

/-! ## Markup parser

`_PageParser` subclasses Python's event-driven `html.parser.HTMLParser`:
the standard library tokenizes the markup and calls `handle_starttag`,
`handle_endtag` and `handle_data`.  We model the event stream as a list
of `Tok` values, embed the three handlers from the source, and provide a
tokenizer modelling the relevant fragment of `html.parser` (tags with
quoted/unquoted attributes, text runs between tags, XHTML self-closing
tags, skipped declarations/comments) for concrete documents. -/

/-- One parser event: a start tag with its attribute list (attribute
values are `none` for valueless attributes, as in `html.parser`), an end
tag, or a text run. -/
inductive Tok where
  | startTag (tag : String) (attrs : List (String × Option String))
  | endTag (tag : String)
  | text (s : String)
deriving Repr, DecidableEq

/-- Python `dict(attrs).get(k)`: last occurrence of a duplicated
attribute name wins, and a valueless attribute (stored as `None`)
also yields `none`. -/
def attrGet (attrs : List (String × Option String)) (k : String) : Option String :=
  match attrs.reverse.find? (fun p => p.1 == k) with
  | some p => p.2
  | none => none

/-- Python `dict(attrs).get(k, "")`.  (For a valueless attribute Python
stores `None`; downstream code only reads these values as strings, so we
collapse that corner to `""`.) -/
def attrGetD (attrs : List (String × Option String)) (k : String) : String :=
  match attrGet attrs k with
  | some v => v
  | none => ""

/-- Python `",".join(rel)` where `rel` is the *string* value of the
`rel` attribute: joins the characters of the string with commas
(e.g. `"icon"` becomes `"i,c,o,n"`). -/
def commaJoinChars (s : String) : String :=
  String.intercalate "," (s.data.map (fun c => String.mk [c]))

/-- Parser state: the `ParsedPage` being built plus
`_current_data_stack` (head of the list is the top of the stack,
i.e. Python's `stack[-1]`). -/
structure ParserState where
  page : ParsedPage
  stack : List String
deriving Repr, DecidableEq

/-- `_PageParser.handle_starttag` from `audit/services.py`. -/
def handle_starttag (s : ParserState) (tag : String) (attrs : List (String × Option String)) :
    ParserState :=
  if tag == "title" then
    { s with stack := "title" :: s.stack }
  else if tag == "a" then
    match attrGet attrs "href" with
    | some href => if href == "" then s else { s with page.links := s.page.links ++ [href] }
    | none => s
  else if tag == "img" then
    { s with page.images := s.page.images ++ [(attrGetD attrs "src", attrGetD attrs "alt")] }
  else if tag == "h1" ∨ tag == "h2" ∨ tag == "h3" then
    { s with stack := tag :: s.stack }
  else if tag == "form" then
    { s with page.forms := s.page.forms + 1 }
  else if tag == "meta" then
    -- name = attrs_dict.get("name") or attrs_dict.get("property")  (Python truthiness)
    let name :=
      match attrGet attrs "name" with
      | some n => if n == "" then attrGet attrs "property" else some n
      | none => attrGet attrs "property"
    match name, attrGet attrs "content" with
    | some n, some c =>
        if n == "" ∨ c == "" then s
        else { s with page.meta := dictSet s.page.meta (strToLower n) c }
    | _, _ => s
  else if tag == "link" then
    match attrGet attrs "rel", attrGet attrs "href" with
    | some rel, some href =>
        if rel == "" ∨ href == "" then s
        else { s with page.meta := dictSetdefault s.page.meta ("link::" ++ commaJoinChars rel) href }
    | _, _ => s
  else s

/-- `_PageParser.handle_endtag`: pop only when the closing tag matches
the top of the tracked-tag stack. -/
def handle_endtag (s : ParserState) (tag : String) : ParserState :=
  match s.stack with
  | top :: rest => if top == tag then { s with stack := rest } else s
  | [] => s

/-- `_PageParser.handle_data`: attribute stripped nonempty text to the
innermost tracked tag (title text is accumulated, heading text is
appended as a pair). -/
def handle_data (s : ParserState) (d : String) : ParserState :=
  match s.stack with
  | [] => s
  | key :: _ =>
    let d := pyStrip d
    if d == "" then s
    else if key == "title" then
      { s with page.title := some ((s.page.title.getD "") ++ d) }
    else
      { s with page.headings := s.page.headings ++ [(key, d)] }

/-- Dispatch one parser event to the matching handler. -/
def handleTok (s : ParserState) (t : Tok) : ParserState :=
  match t with
  | .startTag tag attrs => handle_starttag s tag attrs
  | .endTag tag => handle_endtag s tag
  | .text d => handle_data s d

/-- `HTMLParser.feed`: drive the handlers over the event stream. -/
def feedToks (s : ParserState) (toks : List Tok) : ParserState :=
  toks.foldl handleTok s

/-- The freshly constructed `_PageParser` with `parser.page.url = url`
already assigned (as `_parse_html` does before feeding). -/
def initState (url : String) : ParserState :=
  { page := { url := url }, stack := [] }

/-! ### Tokenizer (model of the `html.parser` event stream) -/

/-- The whitespace set used by `html.parser` between attributes. -/
def isSpaceChar (c : Char) : Bool :=
  c == ' ' ∨ c == '\t' ∨ c == '\n' ∨ c == '\r' ∨ c == '\x0c'

/-- Characters allowed in a tag name (`html.parser`'s `tagfind` class). -/
def isNameChar (c : Char) : Bool :=
  c.isAlphanum ∨ c == '-' ∨ c == '.' ∨ c == ':' ∨ c == '_'

/-- Attribute parsing inside a tag (model of `html.parser`'s tolerant
attribute scanner): skip whitespace and slashes, read a name up to
whitespace, `/` or `=`, then an optional `=`-prefixed value that is
single-quoted, double-quoted, or unquoted up to whitespace.  Attribute
names are lowercased.  `fuel` bounds recursion (one unit per step). -/
def parseAttrs : Nat → List Char → List (String × Option String)
  | 0, _ => []
  | _, [] => []
  | fuel + 1, c :: cs =>
    if isSpaceChar c ∨ c == '/' then parseAttrs fuel cs
    else
      let stop := fun ch => isSpaceChar ch ∨ ch == '/' ∨ ch == '='
      let name := strToLower ((c :: cs).takeWhile (fun ch => ¬ stop ch)).asString
      let rest := (c :: cs).dropWhile (fun ch => ¬ stop ch)
      let rest1 := rest.dropWhile (fun ch => isSpaceChar ch)
      match rest1 with
      | '=' :: r2 =>
        let r3 := r2.dropWhile (fun ch => isSpaceChar ch)
        match r3 with
        | '"' :: r4 =>
          let v := r4.takeWhile (fun ch => ¬ ch == '"')
          let r5 := (r4.dropWhile (fun ch => ¬ ch == '"')).drop 1
          (name, some v.asString) :: parseAttrs fuel r5
        | '\'' :: r4 =>
          let v := r4.takeWhile (fun ch => ¬ ch == '\'')
          let r5 := (r4.dropWhile (fun ch => ¬ ch == '\'')).drop 1
          (name, some v.asString) :: parseAttrs fuel r5
        | _ =>
          let v := r3.takeWhile (fun ch => ¬ isSpaceChar ch)
          let r5 := r3.dropWhile (fun ch => ¬ isSpaceChar ch)
          (name, some v.asString) :: parseAttrs fuel r5
      | _ => (name, none) :: parseAttrs fuel rest1

/-- Turn the contents of one `<...>` group into events: `</name>` is an
end tag, `<!...>` and `<?...>` are skipped (comments, declarations,
processing instructions get no default handler), `<name attrs>` is a
start tag, and an XHTML-style `<name attrs/>` additionally emits the
matching end tag (Python's `handle_startendtag` default). -/
def tagTokens (inTag : List Char) : List Tok :=
  match inTag with
  | [] => []
  | '/' :: rest =>
    let name := strToLower (rest.takeWhile isNameChar).asString
    if name == "" then [] else [Tok.endTag name]
  | '!' :: _ => []
  | '?' :: _ => []
  | c :: rest =>
    if c.isAlpha then
      let name := strToLower ((c :: rest).takeWhile isNameChar).asString
      let attrsPart := (c :: rest).dropWhile isNameChar
      let selfClosing := (c :: rest).getLast? == some '/'
      let attrs := parseAttrs attrsPart.length attrsPart
      Tok.startTag name attrs :: (if selfClosing then [Tok.endTag name] else [])
    else
      [Tok.text ("<" ++ (c :: rest).asString ++ ">")]

/-- Tokenize raw markup: a `<...>` group becomes tag events, a maximal
run of other characters becomes one text event (matching
`convert_charrefs=True` buffering, entities aside).  `fuel` bounds
recursion; every step consumes at least one character. -/
def tokenizeAux : Nat → List Char → List Tok
  | 0, _ => []
  | _, [] => []
  | fuel + 1, '<' :: rest =>
    let inTag := rest.takeWhile (fun c => ¬ c == '>')
    let rest' := (rest.dropWhile (fun c => ¬ c == '>')).drop 1
    tagTokens inTag ++ tokenizeAux fuel rest'
  | fuel + 1, c :: rest =>
    let txt := (c :: rest).takeWhile (fun ch => ¬ ch == '<')
    let rest' := (c :: rest).dropWhile (fun ch => ¬ ch == '<')
    Tok.text txt.asString :: tokenizeAux fuel rest'

/-- Event stream of an HTML document. -/
def tokenize (s : String) : List Tok :=
  tokenizeAux s.data.length s.data

/-- Feed a whole document through `_PageParser` and read off the page. -/
def parsePage (doc : String) (url : String) : ParsedPage :=
  (feedToks (initState url) (tokenize doc)).page

/-! ### Byte decoding and `_parse_html` -/

/-- Is `b` a UTF-8 continuation byte (`0x80..0xBF`)? -/
def isContByte (b : Nat) : Bool := 0x80 ≤ b ∧ b ≤ 0xBF

/-- `content.decode("utf-8", errors="ignore")`: decode UTF-8, silently
dropping invalid sequences (invalid lead bytes, bad continuations,
overlong forms, surrogates, out-of-range code points, truncated tails)
and resynchronizing at the next byte.  Bytes are `Nat`s; anything
outside `0..0xFF` is an invalid lead byte and is dropped.  `fuel`
bounds recursion; every step consumes at least one byte. -/
def decodeUtf8IgnoreAux : Nat → List Nat → List Char
  | 0, _ => []
  | _, [] => []
  | fuel + 1, b :: rest =>
    if b < 0x80 then
      Char.ofNat b :: decodeUtf8IgnoreAux fuel rest
    else if 0xC2 ≤ b ∧ b ≤ 0xDF then
      match rest with
      | b2 :: rest2 =>
        if isContByte b2 then
          Char.ofNat ((b - 0xC0) * 0x40 + (b2 - 0x80)) :: decodeUtf8IgnoreAux fuel rest2
        else decodeUtf8IgnoreAux fuel rest
      | [] => []
    else if 0xE0 ≤ b ∧ b ≤ 0xEF then
      match rest with
      | b2 :: b3 :: rest3 =>
        if isContByte b2 ∧ isContByte b3 then
          let cp := (b - 0xE0) * 0x1000 + (b2 - 0x80) * 0x40 + (b3 - 0x80)
          if 0x800 ≤ cp ∧ ¬ (0xD800 ≤ cp ∧ cp ≤ 0xDFFF) then
            Char.ofNat cp :: decodeUtf8IgnoreAux fuel rest3
          else decodeUtf8IgnoreAux fuel rest
        else decodeUtf8IgnoreAux fuel rest
      | _ => []
    else if 0xF0 ≤ b ∧ b ≤ 0xF4 then
      match rest with
      | b2 :: b3 :: b4 :: rest4 =>
        if isContByte b2 ∧ isContByte b3 ∧ isContByte b4 then
          let cp := (b - 0xF0) * 0x40000 + (b2 - 0x80) * 0x1000 + (b3 - 0x80) * 0x40 + (b4 - 0x80)
          if 0x10000 ≤ cp ∧ cp ≤ 0x10FFFF then
            Char.ofNat cp :: decodeUtf8IgnoreAux fuel rest4
          else decodeUtf8IgnoreAux fuel rest
        else decodeUtf8IgnoreAux fuel rest
      | _ => []
    else
      decodeUtf8IgnoreAux fuel rest

/-- `bytes.decode("utf-8", errors="ignore")` as a total function. -/
def decodeUtf8Ignore (content : List Nat) : String :=
  (decodeUtf8IgnoreAux content.length content).asString

/-- `_parse_html(content, url)` from `audit/services.py`: construct a
parser, assign the page URL, feed the ignore-decoded bytes, and return
the page.  (`parser.close()` flushes no pending state in this model.) -/
def parse_html (content : List Nat) (url : String) : ParsedPage :=
  (feedToks (initState url) (tokenize (decodeUtf8Ignore content))).page

/-! ### Link resolver and sampler -/

/-- `_absolutize_links(base_url, links)` from `audit/services.py`,
parameterized by a model `urljoin` of `urllib.parse.urljoin`: skip
falsy (empty) links, strip surrounding whitespace, skip links starting
with the exact prefix `"javascript:"`, and resolve the rest against
`base_url`. -/
def absolutize_links (urljoin : String → String → String) (base_url : String)
    (links : List String) : List String :=
  links.foldl
    (fun abs_links link =>
      if link == "" then abs_links
      else
        let l := pyStrip link
        if strStartsWith l "javascript:" then abs_links
        else abs_links ++ [urljoin base_url l])
    []

/-- `_sample_link_health(base_url, links, limit)` from
`audit/services.py`, instrumented: `fetch` is the `_safe_request`
oracle (`Except` models the call raising), the first component is the
`samples` dict and the second is the trace of links actually fetched,
one entry per `_safe_request` call issued. -/
def sample_link_health_run (fetch : String → Except String Int) (links : List String)
    (limit : Nat) : List (String × Int) × List String :=
  (links.take limit).foldl
    (fun acc link =>
      match fetch link with
      | .ok status => (dictSet acc.1 link status, acc.2 ++ [link])
      | .error _ => (dictSet acc.1 link 0, acc.2 ++ [link]))
    ([], [])

/-- The `samples` mapping returned by `_sample_link_health`. -/
def sample_link_health (fetch : String → Except String Int) (links : List String)
    (limit : Nat) : List (String × Int) :=
  (sample_link_health_run fetch links limit).1

/-! ### Finding evaluator -/

/-- Python truthiness of an optional string (`None` and `""` are falsy). -/
def pyTruthyOpt : Option String → Bool
  | some s => ¬ s == ""
  | none => false

/-- Python `pat in s` substring containment. -/
def strContains (s pat : String) : Bool :=
  (List.range (s.data.length + 1)).any (fun i => pat.data.isPrefixOf (s.data.drop i))

/-- Model of `django.utils.text.Truncator(text).chars(num)`: keep the
text when it already fits in `num` characters, otherwise truncate and
append the one-character ellipsis so the result is `num` characters.
(Django additionally trims trailing whitespace before the ellipsis; no
claim depends on that refinement.) -/
def truncChars (num : Nat) (s : String) : String :=
  if s.length ≤ num then s else (s.data.take (num - 1)).asString ++ "…"

/-- `_evaluate_findings(page, response_status, response_time_ms,
robots_status, link_statuses)` from `audit/services.py`: the eight
independent rules, in source order, each appending at most one finding.
(The source's first line binds a local `severity` that is never read;
it is omitted here.) -/
def evaluate_findings (page : ParsedPage) (response_status : Int) (response_time_ms : Int)
    (robots_status : Option Int) (link_statuses : List (String × Int)) : List Finding :=
  let missing_alt := (page.images.filter (fun p => pyStrip p.2 == "")).map (fun p => p.1)
  let broken_links := (link_statuses.filter (fun p => 400 ≤ p.2 ∨ p.2 = 0)).map (fun p => p.1)
  let truncated_links := String.intercalate ", " ((broken_links.take 3).map (truncChars 80))
  (if 400 ≤ response_status ∨ response_status = 0 then
    [{ category := "availability", severity := SEVERITY_HIGH,
       title := "Homepage is unreachable",
       description := "The main URL returned status " ++ toString response_status ++ ".",
       recommendation := "Verify hosting availability and ensure the server returns 200 OK for the homepage." }]
  else [])
  ++ (if 2000 < response_time_ms then
    [{ category := "performance", severity := SEVERITY_MEDIUM,
       title := "Slow initial response",
       description := "Measured response time " ++ toString response_time_ms ++ "ms exceeds the 2s threshold.",
       recommendation := "Optimize server-side rendering, add caching, and compress assets to improve TTFB." }]
  else [])
  ++ (if pyTruthyOpt (dictGet page.meta "description") = false then
    [{ category := "seo", severity := SEVERITY_MEDIUM,
       title := "Missing meta description",
       description := "The page does not define a meta description tag.",
       recommendation := "Add a concise, keyword-rich meta description under 160 characters to improve SERP visibility." }]
  else [])
  ++ (if (page.meta.any (fun p => strStartsWith p.1 "link::icon" || strContains p.1 "icon")) = false then
    [{ category := "branding", severity := SEVERITY_LOW,
       title := "No favicon detected",
       description := "Browsers did not detect a favicon link element.",
       recommendation := "Add a `<link rel=\"icon\">` tag pointing to a favicon for brand recognition." }]
  else [])
  ++ (if (page.headings.any (fun p => p.1 == "h1")) = false then
    [{ category := "structure", severity := SEVERITY_LOW,
       title := "No H1 heading",
       description := "The page markup is missing a primary `<h1>` heading.",
       recommendation := "Provide a unique H1 heading describing the page contents." }]
  else [])
  ++ (if missing_alt ≠ [] then
    [{ category := "accessibility", severity := SEVERITY_MEDIUM,
       title := "Images without alternative text",
       description := "Detected " ++ toString missing_alt.length ++ " image(s) missing alt descriptions.",
       recommendation := "Add meaningful `alt` attributes to all informative images to comply with WCAG guidelines." }]
  else [])
  ++ (if broken_links ≠ [] then
    [{ category := "links", severity := SEVERITY_HIGH,
       title := "Broken links detected",
       description := "Sampled links returned errors: " ++ truncated_links ++ ".",
       recommendation := "Update or remove broken links to maintain trust and SEO health." }]
  else [])
  ++ (if robots_status = none then
    [{ category := "seo", severity := SEVERITY_LOW,
       title := "robots.txt not reachable",
       description := "Crawler directives file `/robots.txt` was not found or returned an error.",
       recommendation := "Provide a robots.txt to guide search engine crawlers and list your sitemap." }]
  else [])

/-! ## Audit orchestrator

`run_audit(website, url, user)` creates one `AuditRun` row, runs the
pipeline inside a `try`, and on any exception stamps the row `failed`
with the error's message.  The persistence layer is modelled as an
explicit `Db` state; the effectful steps (the two `_safe_request`
calls, the sampled link fetches, and the database writes inside the
`try`) are oracles in an `Env` record whose `Except`/`Option` values
say whether each call returns or raises.  The `metadata` mapping
assembled for a completed run (raw telemetry, region markers, score
history) is not represented: no claim mentions it. -/

/-- The persisted fields of one `AuditRun` row that the claims
mention. -/
structure RunRec where
  status : String
  summary : String
  score : Int
  response_time_ms : Int
  content_length : Nat
deriving Repr, DecidableEq

/-- The persistence state owned by one audit: its result rows, finding
rows and metric rows (label, value). -/
structure Db where
  runs : List RunRec
  findings : List Finding
  metrics : List (String × String)
deriving Repr, DecidableEq

/-- Outcomes of the effectful calls made by one `run_audit` invocation.
`Except.error msg` / `some msg` mean the call raises an exception whose
message is `msg`. -/
structure Env where
  /-- `_safe_request(target_url)`: status, body bytes, elapsed ms. -/
  fetchMain : Except String (Int × List Nat × Int)
  /-- `_safe_request(urljoin(target_url, "/robots.txt"))`: its status
  (body and elapsed time are discarded by the caller). -/
  fetchRobots : Except String Int
  /-- `_safe_request(link)` as issued by `_sample_link_health`. -/
  fetchLink : String → Except String Int
  /-- Model of `urllib.parse.urljoin` used by `_absolutize_links`. -/
  urljoin : String → String → String
  /-- The `audit.save()` persisting the completed row. -/
  saveCompleted : Option String
  /-- `AuditFinding.objects.create` for the i-th finding of the loop. -/
  findingCreate : Nat → Option String
  /-- `AuditMetric.objects.bulk_create` for the five metric rows. -/
  metricCreate : Option String

/-- `audit.save()`: update the row this audit created (the last one
appended to `runs`). -/
def saveRun (db : Db) (r : RunRec) : Db :=
  { db with runs := db.runs.dropLast ++ [r] }

/-- The `for finding in findings: AuditFinding.objects.create(...)`
loop: each iteration either persists one finding row or raises,
leaving the rows created so far in place. -/
def createFindings (env : Env) : List Finding → Nat → Db → Except (String × Db) Db
  | [], _, db => .ok db
  | f :: fs, i, db =>
    match env.findingCreate i with
    | some msg => .error (msg, db)
    | none => createFindings env fs (i + 1) { db with findings := db.findings ++ [f] }

/-- The freshly created `AuditRun` row (`AuditRun.objects.create`):
model defaults from `audit/models.py` (`status="pending"`, blank
summary, zeros). -/
def pendingRun : RunRec :=
  { status := "pending", summary := "", score := 0, response_time_ms := 0, content_length := 0 }

/-- The persistence tail of `run_audit`'s `try` block, after the
completed row's fields are assigned: `audit.save()`, the
finding-creation loop, and `AuditMetric.objects.bulk_create` of the
five metric rows (built by the caller); each write may raise. -/
def persistResults (env : Env) (audit1 : RunRec) (findings : List Finding)
    (metricRows : List (String × String)) (db : Db) : Except (String × RunRec × Db) Db :=
  match createFindings env findings 0 (saveRun db audit1) with
  | .error e => .error (e.1, audit1, e.2)
  | .ok db2 =>
    match env.metricCreate with
    | some msg => .error (msg, audit1, db2)
    | none => .ok { db2 with metrics := db2.metrics ++ metricRows }

/-- The body of `run_audit`'s `try` block.  On success it returns the
final `Db`; on an exception it returns the message together with the
in-memory `AuditRun` field values and the `Db` at the moment of the
raise (both needed by the `except` handler, which mutates and saves the
in-memory object). -/
def run_audit_try (env : Env) (target_url : String) (audit : RunRec) (db : Db) :
    Except (String × RunRec × Db) Db :=
  match env.fetchMain with
  | .error msg => .error (msg, audit, db)
  | .ok (status, body, response_time) =>
    let page := parse_html body target_url
    let absolute_links := absolutize_links env.urljoin target_url page.links
    let link_statuses := sample_link_health env.fetchLink absolute_links 5
    let robots_status : Option Int :=
      match env.fetchRobots with
      | .error _ => none
      | .ok st => if 400 ≤ st then none else some st
    let findings := evaluate_findings page status response_time robots_status link_statuses
    let score := calculate_score page findings
    -- audit.status/.summary/.score/... assignments on the in-memory object
    let audit1 : RunRec :=
      { status := "completed",
        summary := match page.title with
          | some t => if t == "" then "Untitled page" else t
          | none => "Untitled page",
        score := score,
        response_time_ms := response_time,
        content_length := body.length }
    match env.saveCompleted with
    | some msg => .error (msg, audit1, db)
    | none =>
      persistResults env audit1 findings
        [("Response status", toString status),
         ("Response time (ms)", toString response_time),
         ("HTML bytes", toString body.length),
         ("Total links parsed", toString absolute_links.length),
         ("Images parsed", toString page.images.length)] db

/-- `run_audit(website, url, user)` from `audit/services.py`: create
the row, run the pipeline, and on any exception stamp the row `failed`
with `f"Audit failed: {exc}"` and save it. -/
def run_audit (env : Env) (target_url : String) : Db :=
  -- AuditRun.objects.create persists the pending row before the try block
  match run_audit_try env target_url pendingRun
      { runs := [pendingRun], findings := [], metrics := [] } with
  | .ok db => db
  | .error e =>
    saveRun e.2.2 { e.2.1 with status := "failed", summary := "Audit failed: " ++ e.1 }

/-! ## Specification-level characterizations and fixtures -/

/-- The links contributed by one parser event: the `href` of an `<a>`
start tag when present and non-empty, nothing otherwise. -/
def tokLink : Tok → List String
  | .startTag tag attrs =>
    if tag == "a" then
      match attrGet attrs "href" with
      | some href => if href == "" then [] else [href]
      | none => []
    else []
  | _ => []

/-- The links contributed by an event stream, in document order. -/
def linksOf : List Tok → List String
  | [] => []
  | t :: ts => tokLink t ++ linksOf ts

/-- Events that may appear between `<title>` and `</title>` without
entering or leaving a tracked tag: text, any start tag other than the
tracked `title`/`h1`/`h2`/`h3`, and any end tag other than `title`. -/
def isInlineTok : Tok → Bool
  | .startTag tag _ => !(tag == "title" || tag == "h1" || tag == "h2" || tag == "h3")
  | .endTag tag => !(tag == "title")
  | .text _ => true

/-- Concatenation, in document order, of the stripped text chunks of an
event stream (whitespace-only chunks contribute nothing). -/
def titleText : List Tok → String
  | [] => ""
  | Tok.text d :: ts => pyStrip d ++ titleText ts
  | _ :: ts => titleText ts

/-- How `handle_data` extends the accumulated title with one stripped
chunk: an empty chunk is ignored, otherwise it is appended to the
current title (`""` for `None`). -/
def optTitleAppend (o : Option String) (d : String) : Option String :=
  if d == "" then o else some (o.getD "" ++ d)

/-- `urllib.parse.urljoin(base, url)` for a reference that carries its
own scheme outside `uses_relative` (for example `javascript:` or
`JavaScript:`): the reference is returned unchanged.  Join oracle for
counterexamples whose links all carry such schemes. -/
def urljoinNonRelative (_base url : String) : String := url

/-- Fixture for the orchestrator: every call succeeds except the
`AuditFinding.objects.create` for the second finding, which raises
mid-loop.  The empty body parses to a page with no meta description,
no favicon and no `<h1>`, so three findings are evaluated. -/
def envPartialFailure : Env :=
  { fetchMain := .ok (200, [], 100),
    fetchRobots := .ok 200,
    fetchLink := fun _ => .ok 200,
    urljoin := urljoinNonRelative,
    saveCompleted := none,
    findingCreate := fun i => if i == 1 then some "database error" else none,
    metricCreate := none }

/-- Fixture for the orchestrator: the target fetch itself raises (the
spec's transport-error scenario); every other call succeeds. -/
def envFetchRaise : Env :=
  { fetchMain := .error "boom",
    fetchRobots := .ok 200,
    fetchLink := fun _ => .ok 200,
    urljoin := urljoinNonRelative,
    saveCompleted := none,
    findingCreate := fun _ => none,
    metricCreate := none }

/-- Fixture for the link sampler: `"https://broken.example"` raises,
everything else returns 200. -/
def fetchOneBroken (link : String) : Except String Int :=
  if link == "https://broken.example" then .error "connection refused" else .ok 200

/-! ## Scorer lemmas -/

theorem penaltyFor_nonneg (sev : String) : 0 ≤ penaltyFor sev := by
  unfold penaltyFor
  split_ifs <;> norm_num

theorem foldl_sub_penalty (findings : List Finding) (x : Int) :
    findings.foldl (fun base f => base - penaltyFor f.severity) x = x - totalPenalty findings := by
  induction findings generalizing x with
  | nil => simp [totalPenalty]
  | cons f fs ih =>
    simp only [List.foldl_cons, ih, totalPenalty, List.map_cons, List.sum_cons]
    ring

theorem totalPenalty_nonneg (findings : List Finding) : 0 ≤ totalPenalty findings := by
  unfold totalPenalty
  induction findings with
  | nil => simp
  | cons f fs ih =>
    simp only [List.map_cons, List.sum_cons]
    have := penaltyFor_nonneg f.severity
    omega

theorem totalPenalty_append (xs ys : List Finding) :
    totalPenalty (xs ++ ys) = totalPenalty xs + totalPenalty ys := by
  simp [totalPenalty]

theorem calculate_score_eq (page : ParsedPage) (findings : List Finding) :
    calculate_score page findings = max 0 (99 - totalPenalty findings) := by
  unfold calculate_score
  rw [foldl_sub_penalty]

/-- C1: the claim says `score(findings)` starts from a baseline of 100,
giving 100 for the empty findings list and 65 for one low, one medium
and one high finding.  The code's `_calculate_score` starts at
`base = 99` (`audit/services.py:413`), so those inputs score 99 and 64.
The project's own test (`audit/tests.py:38`) asserts a score of 100 for
a zero-finding run, which the code as written fails, so the claim is
right and the baseline constant is the slip. -/
theorem calculate_score_baseline_is_99 :
    calculate_score { url := "https://example.com" } [] = 99 ∧
    calculate_score { url := "https://example.com" }
      [{ category := "structure", severity := "low", title := "No H1 heading",
         description := "", recommendation := "" },
       { category := "seo", severity := "medium", title := "Missing meta description",
         description := "", recommendation := "" },
       { category := "links", severity := "high", title := "Broken links detected",
         description := "", recommendation := "" }] = 64 := by
  constructor <;> decide

/-- C6: for every findings list the score is an integer in `[0, 100]`,
and appending one more finding never increases it. -/
theorem calculate_score_bounded_monotone (page : ParsedPage) (findings : List Finding)
    (f : Finding) :
    0 ≤ calculate_score page findings ∧ calculate_score page findings ≤ 100 ∧
    calculate_score page (findings ++ [f]) ≤ calculate_score page findings := by
  rw [calculate_score_eq, calculate_score_eq, totalPenalty_append]
  have h0 := totalPenalty_nonneg findings
  have h1 := totalPenalty_nonneg [f]
  refine ⟨le_max_left _ _, max_le (by norm_num) (by omega), max_le_max le_rfl (by omega)⟩

/-! ## Parser fold lemmas -/

theorem handle_starttag_links (s : ParserState) (tag : String)
    (attrs : List (String × Option String)) :
    (handle_starttag s tag attrs).page.links =
      s.page.links ++ tokLink (Tok.startTag tag attrs) := by
  unfold handle_starttag tokLink
  repeat' split
  all_goals try simp_all
  all_goals repeat' split
  all_goals simp_all

theorem handleTok_links (s : ParserState) (t : Tok) :
    (handleTok s t).page.links = s.page.links ++ tokLink t := by
  cases t with
  | startTag tag attrs => exact handle_starttag_links s tag attrs
  | endTag tag =>
    unfold handleTok handle_endtag tokLink
    repeat' split
    all_goals simp_all
  | text d =>
    unfold handleTok handle_data tokLink
    repeat' split
    all_goals try simp_all
    all_goals repeat' split
    all_goals simp_all

theorem feedToks_links (toks : List Tok) (s : ParserState) :
    (feedToks s toks).page.links = s.page.links ++ linksOf toks := by
  induction toks generalizing s with
  | nil => simp [feedToks, linksOf]
  | cons t ts ih =>
    show (feedToks (handleTok s t) ts).page.links = _
    rw [ih, handleTok_links, linksOf, List.append_assoc]

theorem handle_starttag_url (s : ParserState) (tag : String)
    (attrs : List (String × Option String)) :
    (handle_starttag s tag attrs).page.url = s.page.url := by
  unfold handle_starttag
  repeat' split
  all_goals try simp_all
  all_goals repeat' split
  all_goals simp_all

theorem handleTok_url (s : ParserState) (t : Tok) :
    (handleTok s t).page.url = s.page.url := by
  cases t with
  | startTag tag attrs => exact handle_starttag_url s tag attrs
  | endTag tag =>
    unfold handleTok handle_endtag
    repeat' split
    all_goals simp_all
  | text d =>
    unfold handleTok handle_data
    repeat' split
    all_goals try simp_all
    all_goals repeat' split
    all_goals simp_all

theorem feedToks_url (toks : List Tok) (s : ParserState) :
    (feedToks s toks).page.url = s.page.url := by
  induction toks generalizing s with
  | nil => rfl
  | cons t ts ih =>
    show (feedToks (handleTok s t) ts).page.url = _
    rw [ih, handleTok_url]

/-- C3 (amended): for every input document and URL, the links sequence
is exactly the hrefs of the `<a>` start-tag events that carry a
*non-empty* `href`, in document order, duplicates included.  (The
original claim also demanded that an empty-string `href` be appended;
`handle_starttag`'s truthiness test `if href:` drops it, see the
counterexample.) -/
theorem parser_links_in_document_order (doc url : String) :
    (parsePage doc url).links = linksOf (tokenize doc) := by
  unfold parsePage
  rw [feedToks_links]
  rfl

/-- C3 (counterexample): on `<a href="">home</a><a href="/x">a</a>
<a href="/x">b</a>` the claim as stated predicts links
`["", "/x", "/x"]` (the empty href appended too); the code keeps only
the two non-empty duplicates. -/
theorem empty_href_dropped :
    (parsePage "<a href=\"\">home</a><a href=\"/x\">a</a><a href=\"/x\">b</a>"
        "https://example.com").links = ["/x", "/x"] ∧
    (parsePage "<a href=\"\">home</a><a href=\"/x\">a</a><a href=\"/x\">b</a>"
        "https://example.com").links ≠ ["", "/x", "/x"] := by
  constructor <;> decide

/-- C9: the parser is total by construction — for every byte sequence
(however malformed as UTF-8) and every URL it returns a `ParsedPage`
whose `url` field is the given URL; no failure outcome exists in its
type.  Decoding uses `errors="ignore"` semantics (`decodeUtf8Ignore`),
so undecodable sequences are silently skipped. -/
theorem parse_html_total (content : List Nat) (url : String) :
    ∃ p : ParsedPage, parse_html content url = p ∧ p.url = url := by
  refine ⟨parse_html content url, rfl, ?_⟩
  unfold parse_html
  rw [feedToks_url]
  rfl

/-! ## Title accumulation lemmas -/

theorem strAppend_ne_empty (a b : String) (h : ¬ a = "") : ¬ (a ++ b) = "" := by
  intro hc
  apply h
  have hd := congrArg String.data hc
  rw [String.data_append] at hd
  have ha : a.data = [] := (List.append_eq_nil.mp hd).1
  cases a
  simp_all

theorem optTitleAppend_empty (o : Option String) : optTitleAppend o "" = o := by
  simp [optTitleAppend]

theorem optTitleAppend_append (o : Option String) (a b : String) :
    optTitleAppend (optTitleAppend o a) b = optTitleAppend o (a ++ b) := by
  unfold optTitleAppend
  by_cases ha : a == ""
  · simp_all
  · by_cases hb : b == ""
    · have hb' : b = "" := by simpa using hb
      simp_all [String.append_empty]
    · have ha' : ¬ a = "" := by simpa using ha
      have hab : ¬ (a ++ b) = "" := strAppend_ne_empty a b ha'
      simp_all [String.append_assoc]

theorem handle_endtag_page (s : ParserState) (tag : String) :
    (handle_endtag s tag).page = s.page := by
  unfold handle_endtag
  repeat' split
  all_goals rfl

theorem handleTok_title_inline (s : ParserState) (t : Tok) (rest : List String)
    (ht : isInlineTok t = true) (hs : s.stack = "title" :: rest) :
    (handleTok s t).stack = s.stack ∧
    (handleTok s t).page.title =
      optTitleAppend s.page.title (match t with | .text d => pyStrip d | _ => "") := by
  cases t with
  | startTag tag attrs =>
    simp [isInlineTok] at ht
    show (handle_starttag s tag attrs).stack = _ ∧ (handle_starttag s tag attrs).page.title = _
    rw [optTitleAppend_empty]
    unfold handle_starttag
    repeat' split
    all_goals try simp_all
    all_goals repeat' split
    all_goals simp_all
  | endTag tag =>
    simp [isInlineTok] at ht
    show (handle_endtag s tag).stack = _ ∧ (handle_endtag s tag).page.title = _
    rw [optTitleAppend_empty]
    unfold handle_endtag
    rw [hs]
    repeat' split
    all_goals simp_all
  | text d =>
    show (handle_data s d).stack = _ ∧ (handle_data s d).page.title = _
    unfold handle_data optTitleAppend
    rw [hs]
    by_cases hd : pyStrip d == ""
    · simp_all
    · simp_all

theorem feedToks_title_inline (toks : List Tok) (h : toks.all isInlineTok = true)
    (s : ParserState) (rest : List String) (hs : s.stack = "title" :: rest) :
    (feedToks s toks).stack = s.stack ∧
    (feedToks s toks).page.title = optTitleAppend s.page.title (titleText toks) := by
  induction toks generalizing s with
  | nil => exact ⟨rfl, (optTitleAppend_empty _).symm⟩
  | cons t ts ih =>
    rw [List.all_cons, Bool.and_eq_true] at h
    obtain ⟨hstep_stack, hstep_title⟩ := handleTok_title_inline s t rest h.1 hs
    have hs' : (handleTok s t).stack = "title" :: rest := by rw [hstep_stack, hs]
    obtain ⟨ih_stack, ih_title⟩ := ih h.2 (handleTok s t) hs'
    constructor
    · show (feedToks (handleTok s t) ts).stack = s.stack
      rw [ih_stack, hstep_stack]
    · show (feedToks (handleTok s t) ts).page.title = _
      rw [ih_title, hstep_title, optTitleAppend_append]
      cases t with
      | text d => rfl
      | startTag tag attrs =>
        show optTitleAppend s.page.title ("" ++ titleText ts) = _
        rw [String.empty_append]
        rfl
      | endTag tag =>
        show optTitleAppend s.page.title ("" ++ titleText ts) = _
        rw [String.empty_append]
        rfl

/-- C8 (amended): the parsed title is the concatenation, in document
order, of the *whitespace-stripped* nonempty text chunks seen while
`title` is the innermost tracked tag — nested non-tracked markup such
as `<b>` does not interrupt the accumulation, and no separators are
added between chunks; when every chunk strips to empty the title stays
`None`.  (The original claim promised the plain concatenation of the
raw text nodes; `handle_data` strips each chunk first, see the
counterexample.)  In particular `<title>Foo<b>Bar</b></title>` yields
`"FooBar"`, as the witness instantiates. -/
theorem title_concatenates_stripped_chunks (url : String) (toks : List Tok)
    (h : toks.all isInlineTok = true) :
    (feedToks (initState url)
        (Tok.startTag "title" [] :: (toks ++ [Tok.endTag "title"]))).page.title =
      if titleText toks == "" then none else some (titleText toks) := by
  show (feedToks (handleTok (initState url) (Tok.startTag "title" [])) (toks ++ [Tok.endTag "title"])).page.title = _
  have h1 : handleTok (initState url) (Tok.startTag "title" []) =
      { page := { url := url }, stack := ["title"] } := rfl
  rw [h1]
  have h2 : feedToks { page := { url := url }, stack := ["title"] } (toks ++ [Tok.endTag "title"]) =
      handleTok (feedToks { page := { url := url }, stack := ["title"] } toks) (Tok.endTag "title") := by
    unfold feedToks
    rw [List.foldl_append]
    rfl
  rw [h2]
  obtain ⟨hstack, htitle⟩ := feedToks_title_inline toks h
    { page := { url := url }, stack := ["title"] } [] rfl
  show (handle_endtag _ "title").page.title = _
  rw [handle_endtag_page, htitle]
  unfold optTitleAppend
  by_cases hT : titleText toks == ""
  · simp_all
  · simp_all [String.empty_append]

/-- C8 (witness): the amended theorem applied to the event stream of
`<title>Foo<b>Bar</b></title>` gives the title `"FooBar"`. -/
theorem title_concatenates_stripped_chunks_witness :
    (feedToks (initState "https://example.com")
        (Tok.startTag "title" [] ::
          ([Tok.text "Foo", Tok.startTag "b" [], Tok.text "Bar", Tok.endTag "b"] ++
            [Tok.endTag "title"]))).page.title = some "FooBar" := by
  rw [title_concatenates_stripped_chunks "https://example.com"
    [Tok.text "Foo", Tok.startTag "b" [], Tok.text "Bar", Tok.endTag "b"] (by decide)]
  decide

/-- C8 (counterexample): in `<title>Foo <b>Bar</b></title>` the text
nodes inside `<title>` are `"Foo "` and `"Bar"`, whose concatenation
with no added separators is `"Foo Bar"`; the code strips each chunk and
produces `"FooBar"`, so the claim as stated fails on this document. -/
theorem title_not_plain_concatenation :
    (parsePage "<title>Foo <b>Bar</b></title>" "https://example.com").title = some "FooBar" ∧
    (parsePage "<title>Foo <b>Bar</b></title>" "https://example.com").title ≠
      some ("Foo " ++ "Bar") := by
  constructor <;> decide

/-! ## Link resolver and sampler -/

theorem absolutize_links_foldl (urljoin : String → String → String) (base_url : String)
    (links : List String) (acc : List String) :
    links.foldl
      (fun abs_links link =>
        if link == "" then abs_links
        else
          let l := pyStrip link
          if strStartsWith l "javascript:" then abs_links
          else abs_links ++ [urljoin base_url l]) acc =
    acc ++ (links.filter
        (fun l => !(l == "" || strStartsWith (pyStrip l) "javascript:"))).map
      (fun l => urljoin base_url (pyStrip l)) := by
  induction links generalizing acc with
  | nil => simp
  | cons link links ih =>
    rw [List.foldl_cons, ih, List.filter_cons]
    by_cases h1 : link = ""
    · simp [h1]
    · by_cases h2 : strStartsWith (pyStrip link) "javascript:"
      · simp [h1, h2]
      · simp [h1, h2, List.append_assoc]

/-- C5 (amended): `absolutize(base_url, raw_links)` drops every empty
link and every link whose whitespace-stripped form starts with the
exact lowercase prefix `"javascript:"` — a *case-sensitive* test — and
maps each remaining link, stripped, through URL resolution against
`base_url`.  (The original claim called the scheme test
case-insensitive; `startswith` is case-sensitive, see the
counterexample.) -/
theorem absolutize_links_filter_map (urljoin : String → String → String) (base_url : String)
    (links : List String) :
    absolutize_links urljoin base_url links =
      (links.filter
          (fun l => !(l == "" || strStartsWith (pyStrip l) "javascript:"))).map
        (fun l => urljoin base_url (pyStrip l)) := by
  unfold absolutize_links
  rw [absolutize_links_foldl]
  rfl

/-- C5 (counterexample): a link whose `javascript:` prefix differs only
in letter case is *not* dropped — `"JavaScript:void(0)"` survives
(resolution leaves a reference with its own non-relative scheme
unchanged), while the lowercase form and the empty link are dropped. -/
theorem javascript_scheme_case_sensitive :
    absolutize_links urljoinNonRelative "https://example.com/"
      ["JavaScript:void(0)", "javascript:void(0)", ""] = ["JavaScript:void(0)"] := by
  decide

/-! ## Sampler lemmas -/

theorem dictGet_dictSet_self {α : Type} (d : List (String × α)) (k : String) (v : α) :
    dictGet (dictSet d k v) k = some v := by
  induction d with
  | nil => simp [dictSet, dictGet]
  | cons p d ih =>
    cases p with
    | mk k' v' =>
      by_cases h : k' == k
      · simp_all [dictSet, dictGet]
      · simp_all [dictSet, dictGet]

theorem dictGet_dictSet_ne {α : Type} (d : List (String × α)) (k k2 : String) (v : α)
    (h : ¬ k2 = k) : dictGet (dictSet d k2 v) k = dictGet d k := by
  induction d with
  | nil => simp [dictSet, dictGet, h]
  | cons p d ih =>
    cases p with
    | mk k' v' =>
      by_cases hk : k' == k2
      · have : k' = k2 := by simpa using hk
        subst this
        simp_all [dictSet, dictGet]
      · simp only [dictSet, hk, if_neg]
        by_cases hk2 : k' == k
        · simp_all [dictGet]
        · simp_all [dictGet]

theorem sample_run_trace_aux (fetch : String → Except String Int) (ls : List String)
    (acc : List (String × Int) × List String) :
    (ls.foldl
      (fun acc link =>
        match fetch link with
        | .ok status => (dictSet acc.1 link status, acc.2 ++ [link])
        | .error _ => (dictSet acc.1 link 0, acc.2 ++ [link])) acc).2 = acc.2 ++ ls := by
  induction ls generalizing acc with
  | nil => simp
  | cons l ls ih =>
    simp only [List.foldl_cons]
    cases hf : fetch l <;> simp [ih]

theorem sample_fold_error_aux (fetch : String → Except String Int) (link msg : String)
    (hf : fetch link = .error msg) (ls : List String)
    (acc : List (String × Int) × List String)
    (hinv : dictGet acc.1 link = some 0 ∨ link ∈ ls) :
    dictGet ((ls.foldl
      (fun acc link =>
        match fetch link with
        | .ok status => (dictSet acc.1 link status, acc.2 ++ [link])
        | .error _ => (dictSet acc.1 link 0, acc.2 ++ [link])) acc).1) link = some 0 := by
  induction ls generalizing acc with
  | nil =>
    rcases hinv with h | h
    · simpa using h
    · simp at h
  | cons l ls ih =>
    simp only [List.foldl_cons]
    by_cases hl : l = link
    · subst hl
      rw [hf]
      exact ih _ (Or.inl (dictGet_dictSet_self _ _ _))
    · have hrec : ∀ st : Int,
          dictGet (dictSet acc.1 l st) link = some 0 ∨ link ∈ ls := by
        intro st
        rcases hinv with h | h
        · exact Or.inl (by rw [dictGet_dictSet_ne _ _ _ _ hl]; exact h)
        · rcases List.mem_cons.mp h with h' | h'
          · exact absurd h'.symm hl
          · exact Or.inr h'
      cases hfl : fetch l
      · exact ih _ (hrec 0)
      · exact ih _ (hrec _)

/-- C7: `sample_health` fetches exactly the first `min(limit, len)`
links in the given order — the trace of issued fetch calls is
`links.take 5`, hence never more than 5 calls — and a link whose fetch
raises is recorded in the mapping with the sentinel status 0 instead of
aborting the sample. -/
theorem sample_link_health_limit_and_sentinel (fetch : String → Except String Int)
    (links : List String) :
    (sample_link_health_run fetch links 5).2 = links.take 5 ∧
    (sample_link_health_run fetch links 5).2.length ≤ 5 ∧
    (∀ link msg, link ∈ links.take 5 → fetch link = .error msg →
      dictGet (sample_link_health fetch links 5) link = some 0) := by
  have htrace : (sample_link_health_run fetch links 5).2 = links.take 5 := by
    unfold sample_link_health_run
    rw [sample_run_trace_aux]
    simp
  refine ⟨htrace, ?_, ?_⟩
  · rw [htrace]
    simp only [List.length_take]
    omega
  · intro link msg hmem hf
    unfold sample_link_health sample_link_health_run
    exact sample_fold_error_aux fetch link msg hf _ _ (Or.inr hmem)

/-- C7 (witness): with seven links of which the second raises, the
sampler issues five calls and records the broken link as status 0. -/
theorem sample_link_health_limit_and_sentinel_witness :
    dictGet (sample_link_health fetchOneBroken
      ["https://ok.example/a", "https://broken.example", "https://ok.example/b",
       "https://ok.example/c", "https://ok.example/d", "https://ok.example/e",
       "https://ok.example/f"] 5) "https://broken.example" = some 0 ∧
    (sample_link_health_run fetchOneBroken
      ["https://ok.example/a", "https://broken.example", "https://ok.example/b",
       "https://ok.example/c", "https://ok.example/d", "https://ok.example/e",
       "https://ok.example/f"] 5).2.length ≤ 5 := by
  constructor
  · exact (sample_link_health_limit_and_sentinel fetchOneBroken
      ["https://ok.example/a", "https://broken.example", "https://ok.example/b",
       "https://ok.example/c", "https://ok.example/d", "https://ok.example/e",
       "https://ok.example/f"]).2.2 "https://broken.example" "connection refused"
      (by decide) rfl
  · exact (sample_link_health_limit_and_sentinel fetchOneBroken
      ["https://ok.example/a", "https://broken.example", "https://ok.example/b",
       "https://ok.example/c", "https://ok.example/d", "https://ok.example/e",
       "https://ok.example/f"]).2.1

/-- C4: code_bug — the claim (and `audit/tests.py:26`, which mocks the
parsed page with a `"link::icon"` key, and the favicon check at
`audit/services.py:351`, which looks for keys starting with
`"link::icon"`) expect `<link rel="icon" href="/favicon.ico">` to be
stored under `"link::icon"`.  The code computes `",".join(rel)` on the
*string* value of `rel`, interleaving commas between its characters, so
the key is `"link::i,c,o,n"`; consequently the evaluator's own favicon
test can never match a key produced from a `<link>` tag.  The
first-occurrence-wins `setdefault` part of the claim does hold, at the
actual key (last conjunct). -/
theorem link_rel_key_comma_joins_characters :
    (parsePage "<link rel=\"icon\" href=\"/favicon.ico\">" "https://example.com").meta =
      [("link::i,c,o,n", "/favicon.ico")] ∧
    dictGet (parsePage "<link rel=\"icon\" href=\"/favicon.ico\">" "https://example.com").meta
      "link::icon" = none ∧
    ((parsePage "<link rel=\"icon\" href=\"/favicon.ico\">" "https://example.com").meta.any
      (fun p => strStartsWith p.1 "link::icon" || strContains p.1 "icon")) = false ∧
    (parsePage "<link rel=\"icon\" href=\"/a\"><link rel=\"icon\" href=\"/b\">"
        "https://example.com").meta = [("link::i,c,o,n", "/a")] := by
  refine ⟨by decide, by decide, by decide, by decide⟩

/-! ## Evaluator bounds -/

theorem length_append_le {xs ys : List Finding} {a b : Nat}
    (hx : xs.length ≤ a) (hy : ys.length ≤ b) : (xs ++ ys).length ≤ a + b := by
  rw [List.length_append]
  omega

theorem totalPenalty_append_le {xs ys : List Finding} {a b : Int}
    (hx : totalPenalty xs ≤ a) (hy : totalPenalty ys ≤ b) :
    totalPenalty (xs ++ ys) ≤ a + b := by
  rw [totalPenalty_append]
  omega

theorem block_length (c : Prop) [Decidable c] (f : Finding) :
    (if c then [f] else []).length ≤ 1 := by
  split_ifs <;> simp

theorem block_penalty (c : Prop) [Decidable c] (f : Finding) (b : Int)
    (hf : penaltyFor f.severity ≤ b) (hb : 0 ≤ b) :
    totalPenalty (if c then [f] else []) ≤ b := by
  split_ifs
  · simpa [totalPenalty] using hf
  · simpa [totalPenalty] using hb

/-- C10: for every input, `_evaluate_findings` is a concatenation of
eight rule blocks each contributing at most one finding, so at most 8
findings are emitted; their severity penalties sum to at most
20+10+10+5+5+10+20+5 = 85; and since `_calculate_score` subtracts the
total penalty from its baseline, the score it computes from evaluator
output is strictly positive — the clamp-to-zero branch is unreachable
on the orchestrator's path. -/
theorem evaluate_findings_bounds (page : ParsedPage) (response_status response_time_ms : Int)
    (robots_status : Option Int) (link_statuses : List (String × Int)) :
    (evaluate_findings page response_status response_time_ms robots_status link_statuses).length ≤ 8 ∧
    totalPenalty (evaluate_findings page response_status response_time_ms robots_status link_statuses) ≤ 85 ∧
    0 < calculate_score page
      (evaluate_findings page response_status response_time_ms robots_status link_statuses) := by
  have hpen : totalPenalty
      (evaluate_findings page response_status response_time_ms robots_status link_statuses) ≤ 85 := by
    simp only [evaluate_findings]
    refine le_trans
      (totalPenalty_append_le (totalPenalty_append_le (totalPenalty_append_le
        (totalPenalty_append_le (totalPenalty_append_le (totalPenalty_append_le
          (totalPenalty_append_le
            (block_penalty _ _ 20 (by simp [penaltyFor, SEVERITY_LOW, SEVERITY_MEDIUM, SEVERITY_HIGH]) (by decide))
            (block_penalty _ _ 10 (by simp [penaltyFor, SEVERITY_LOW, SEVERITY_MEDIUM, SEVERITY_HIGH]) (by decide)))
          (block_penalty _ _ 10 (by simp [penaltyFor, SEVERITY_LOW, SEVERITY_MEDIUM, SEVERITY_HIGH]) (by decide)))
          (block_penalty _ _ 5 (by simp [penaltyFor, SEVERITY_LOW, SEVERITY_MEDIUM, SEVERITY_HIGH]) (by decide)))
          (block_penalty _ _ 5 (by simp [penaltyFor, SEVERITY_LOW, SEVERITY_MEDIUM, SEVERITY_HIGH]) (by decide)))
          (block_penalty _ _ 10 (by simp [penaltyFor, SEVERITY_LOW, SEVERITY_MEDIUM, SEVERITY_HIGH]) (by decide)))
          (block_penalty _ _ 20 (by simp [penaltyFor, SEVERITY_LOW, SEVERITY_MEDIUM, SEVERITY_HIGH]) (by decide)))
        (block_penalty _ _ 5 (by simp [penaltyFor, SEVERITY_LOW, SEVERITY_MEDIUM, SEVERITY_HIGH]) (by decide)))
      (by norm_num)
  refine ⟨?_, hpen, ?_⟩
  · simp only [evaluate_findings]
    refine le_trans
      (length_append_le (length_append_le (length_append_le (length_append_le
        (length_append_le (length_append_le (length_append_le
          (block_length _ _) (block_length _ _)) (block_length _ _)) (block_length _ _))
          (block_length _ _)) (block_length _ _)) (block_length _ _)) (block_length _ _))
      (by norm_num)
  · rw [calculate_score_eq]
    have h14 : (0:Int) < 99 - totalPenalty
        (evaluate_findings page response_status response_time_ms robots_status link_statuses) := by
      omega
    exact lt_of_lt_of_le h14 (le_max_right 0 _)

/-! ## Orchestrator persistence lemmas

The `Db` threaded through one `run_audit` always holds exactly the one
result row the call created; the following lemmas establish that shape
through every step of the `try` block. -/

theorem createFindings_ok_shape (env : Env) (fs : List Finding) (i : Nat) (x : RunRec)
    (f0 : List Finding) (m0 : List (String × String)) (db2 : Db)
    (h : createFindings env fs i ⟨[x], f0, m0⟩ = .ok db2) :
    ∃ f1, db2 = ⟨[x], f1, m0⟩ := by
  induction fs generalizing i f0 with
  | nil =>
    refine ⟨f0, ?_⟩
    simpa [createFindings] using h.symm
  | cons f fs ih =>
    rw [createFindings] at h
    cases hfc : env.findingCreate i
    · rw [hfc] at h
      exact ih (i + 1) (f0 ++ [f]) h
    · rw [hfc] at h
      simp at h

theorem createFindings_error_shape (env : Env) (fs : List Finding) (i : Nat) (x : RunRec)
    (f0 : List Finding) (m0 : List (String × String)) (msg : String) (db2 : Db)
    (h : createFindings env fs i ⟨[x], f0, m0⟩ = .error (msg, db2)) :
    ∃ f1, db2 = ⟨[x], f1, m0⟩ := by
  induction fs generalizing i f0 with
  | nil => simp [createFindings] at h
  | cons f fs ih =>
    rw [createFindings] at h
    cases hfc : env.findingCreate i
    · rw [hfc] at h
      exact ih (i + 1) (f0 ++ [f]) h
    · rw [hfc] at h
      simp at h
      exact ⟨f0, h.2.symm⟩

theorem persistResults_error_shape (env : Env) (audit1 : RunRec) (findings : List Finding)
    (rows : List (String × String)) (x : RunRec) (f0 : List Finding)
    (m0 : List (String × String)) (msg : String) (a2 : RunRec) (db2 : Db)
    (h : persistResults env audit1 findings rows ⟨[x], f0, m0⟩ = .error (msg, a2, db2)) :
    ∃ f1, db2 = ⟨[audit1], f1, m0⟩ := by
  unfold persistResults at h
  cases hc : createFindings env findings 0 (saveRun ⟨[x], f0, m0⟩ audit1) with
  | error e =>
    rw [hc] at h
    obtain ⟨f1, hdb⟩ := createFindings_error_shape env findings 0 audit1 f0 m0 e.1 e.2 hc
    simp at h
    exact ⟨f1, by rw [← h.2.2, hdb]⟩
  | ok db' =>
    rw [hc] at h
    obtain ⟨f1, hdb⟩ := createFindings_ok_shape env findings 0 audit1 f0 m0 db' hc
    cases hm : env.metricCreate with
    | none =>
      rw [hm] at h
      simp at h
    | some m =>
      rw [hm] at h
      simp at h
      exact ⟨f1, by rw [← h.2.2, hdb]⟩

theorem persistResults_ok_shape (env : Env) (audit1 : RunRec) (findings : List Finding)
    (rows : List (String × String)) (x : RunRec) (f0 : List Finding)
    (m0 : List (String × String)) (db2 : Db)
    (h : persistResults env audit1 findings rows ⟨[x], f0, m0⟩ = .ok db2) :
    ∃ f1, db2 = ⟨[audit1], f1, m0 ++ rows⟩ := by
  unfold persistResults at h
  cases hc : createFindings env findings 0 (saveRun ⟨[x], f0, m0⟩ audit1) with
  | error e =>
    rw [hc] at h
    simp at h
  | ok db' =>
    rw [hc] at h
    obtain ⟨f1, hdb⟩ := createFindings_ok_shape env findings 0 audit1 f0 m0 db' hc
    cases hm : env.metricCreate with
    | some m =>
      rw [hm] at h
      simp at h
    | none =>
      rw [hm] at h
      simp at h
      exact ⟨f1, by rw [← h, hdb]⟩

theorem run_audit_try_error_shape (env : Env) (url : String) (audit x : RunRec)
    (f0 : List Finding) (m0 : List (String × String)) (msg : String) (a2 : RunRec) (db2 : Db)
    (h : run_audit_try env url audit ⟨[x], f0, m0⟩ = .error (msg, a2, db2)) :
    ∃ r f1, db2 = ⟨[r], f1, m0⟩ := by
  unfold run_audit_try at h
  repeat' split at h
  all_goals try (simp at h; exact ⟨x, f0, by rw [← h.2.2]⟩)
  all_goals
    obtain ⟨f1, hdb⟩ := persistResults_error_shape env _ _ _ _ _ _ _ _ _ h
  all_goals exact ⟨_, f1, hdb⟩

theorem run_audit_try_ok_shape (env : Env) (url : String) (audit x : RunRec)
    (f0 : List Finding) (m0 : List (String × String)) (db2 : Db)
    (h : run_audit_try env url audit ⟨[x], f0, m0⟩ = .ok db2) :
    ∃ r f1 m1, db2 = ⟨[r], f1, m1⟩ := by
  unfold run_audit_try at h
  repeat' split at h
  all_goals try (simp at h)
  all_goals
    obtain ⟨f1, hdb⟩ := persistResults_ok_shape env _ _ _ _ _ _ _ h
  all_goals exact ⟨_, f1, _, hdb⟩

/-- C2 (amended): whenever any pipeline step raises, exactly one result
record exists for the run (first conjunct, with no hypothesis at all),
and the persisted row has status `failed` with summary
`"Audit failed: " ++ msg` for the causing error `msg` (second
conjunct); and when the raising step *precedes the persistence of
findings* — in particular when the target fetch itself raises, the
spec's transport-error scenario — zero findings and zero metrics are
persisted (third conjunct).  (The original claim asserted zero
persisted findings *regardless of which step raised*; the
finding-creation loop has no surrounding transaction, so a raise
mid-loop leaves the earlier findings in place, see the
counterexample.) -/
theorem run_audit_failure_persistence (env : Env) (target_url msg : String)
    (audit2 : RunRec) (db2 : Db) :
    (run_audit env target_url).runs.length = 1 ∧
    (run_audit_try env target_url pendingRun
        { runs := [pendingRun], findings := [], metrics := [] } = .error (msg, audit2, db2) →
      (run_audit env target_url).runs =
        [{ audit2 with status := "failed", summary := "Audit failed: " ++ msg }]) ∧
    (env.fetchMain = .error msg →
      run_audit env target_url =
        { runs := [{ pendingRun with status := "failed", summary := "Audit failed: " ++ msg }],
          findings := [], metrics := [] }) := by
  refine ⟨?_, ?_, ?_⟩
  · unfold run_audit
    cases hr : run_audit_try env target_url pendingRun
        { runs := [pendingRun], findings := [], metrics := [] } with
    | ok dbf =>
      obtain ⟨r, f1, m1, hdb⟩ := run_audit_try_ok_shape env _ _ _ _ _ _ hr
      simp [hdb]
    | error e =>
      obtain ⟨r, f1, hdb⟩ := run_audit_try_error_shape env _ _ _ _ _ e.1 e.2.1 e.2.2 hr
      simp [saveRun, hdb]
  · intro h
    unfold run_audit
    rw [h]
    obtain ⟨r, f1, hdb⟩ := run_audit_try_error_shape env _ _ _ _ _ _ _ _ h
    simp [saveRun, hdb]
  · intro h
    unfold run_audit run_audit_try
    rw [h]
    rfl

/-- C2 (witness): the amended theorem at `envFetchRaise` (target fetch
raises `"boom"`): one `failed` row whose summary carries the message,
no findings, no metrics. -/
theorem run_audit_failure_persistence_witness :
    run_audit envFetchRaise "https://example.com" =
      { runs := [{ pendingRun with status := "failed", summary := "Audit failed: boom" }],
        findings := [], metrics := [] } :=
  (run_audit_failure_persistence envFetchRaise "https://example.com" "boom" pendingRun
      { runs := [pendingRun], findings := [], metrics := [] }).2.2 rfl

/-- C2 (counterexample): when the create of the *second* finding raises
(`envPartialFailure`), the run is marked failed but the first finding
is already persisted — one finding row survives a failed run,
contradicting the claim's "zero findings … regardless of which pipeline
step raised". -/
theorem failed_run_keeps_partial_findings :
    (run_audit envPartialFailure "https://example.com").runs.map RunRec.status = ["failed"] ∧
    (run_audit envPartialFailure "https://example.com").findings.length = 1 ∧
    (run_audit envPartialFailure "https://example.com").metrics = [] := by
  refine ⟨by decide, by decide, by decide⟩

end QATool
